import Mathlib

/-!
Verification development for a POP3-class client library (package `pop3`).

The Go source is shallowly embedded:
* `Wire` models the incoming side of the byte stream as the list of lines the
  buffered reader will deliver; an entry `none` (or exhaustion of the list)
  models a read failure from `bufio.Reader.ReadLine`.
* Go string slicing `s[i:j]` panics when the bounds are out of range; this is
  modelled by `goSlice`/`goDrop` returning `Option`, and every Go function that
  can hit such a panic returns a `GoOutcome`, whose `panicked` constructor marks
  the runtime panic.
* `ClientState` carries the wire, the trace of commands written to the stream,
  the configured timeout, and whether an absolute deadline is currently set on
  the connection, so that the deadline discipline of the command methods can be
  stated.
-/

/-- A Go `error` value as used by this package: either an I/O error coming from
the underlying stream, or a value built with `errors.New msg`. -/
inductive GoErr where
  | ioErr : GoErr
  | mk (msg : String) : GoErr
  deriving DecidableEq, Repr

/-- Outcome of running a Go function: a normal return, or a runtime panic
(out-of-range slice or index). -/
inductive GoOutcome (α : Type) where
  | ret (a : α) : GoOutcome α
  | panicked : GoOutcome α
  deriving DecidableEq, Repr

/-- The incoming side of the stream: the successive lines `ReadLine` will
deliver, with `none` standing for a read error at that point. Reading past the
end of the list is also a read error. -/
abbrev Wire := List (Option String)

/-- One `c.Reader.ReadLine()` call: consumes the head of the wire; an `Except
.error` is a read error. -/
def readLine : Wire → Except Unit String × Wire
  | [] => (Except.error (), [])
  | none :: rest => (Except.error (), rest)
  | some l :: rest => (Except.ok l, rest)

/-- `var okResponse = "+OK"` -/
def okResponse : String := "+OK"

/-- `var endResponse = "."` -/
def endResponse : String := "."

/-- Go slice `s[i:j]`: defined only when `i ≤ j ≤ len s`; out of range panics,
modelled by `none`. -/
def goSlice (s : String) (i j : Nat) : Option String :=
  if i ≤ j ∧ j ≤ s.data.length then some (String.mk ((s.data.take j).drop i)) else none

/-- Go slice `s[i:]`, i.e. `s[i:len s]`. -/
def goDrop (s : String) (i : Nat) : Option String :=
  goSlice s i s.data.length

/-- `Connection.ReadResponse`: reads one line; on a read error returns
`("", err)`.  Otherwise compares `line[0:3]` with `okResponse` (panicking if the
line is shorter than 3), on a non-OK line builds `errors.New(line[5:])`
(panicking if the line is shorter than 5), and finally sets
`result = line[4:]` whenever `len line >= 4`. -/
def ReadResponse (w : Wire) : GoOutcome (String × Option GoErr) × Wire :=
  match readLine w with
  | (Except.error _, w2) => (GoOutcome.ret ("", some GoErr.ioErr), w2)
  | (Except.ok line, w2) =>
    match goSlice line 0 3 with
    | none => (GoOutcome.panicked, w2)
    | some marker =>
      if marker ≠ okResponse then
        match goDrop line 5 with
        | none => (GoOutcome.panicked, w2)
        | some msg =>
          let result := if 4 ≤ line.data.length then String.mk (line.data.drop 4) else ""
          (GoOutcome.ret (result, some (GoErr.mk msg)), w2)
      else
        let result := if 4 ≤ line.data.length then String.mk (line.data.drop 4) else ""
        (GoOutcome.ret (result, none), w2)

/-- The body of `ReadMultiLines`' loop on a non-terminator line: if
`len line > 0 && string(line[0]) == "."` then `line = line[1:]`. -/
def unstuffLine (l : String) : String :=
  if l.data.head? = some '.' then String.mk (l.data.drop 1) else l

/-- The loop of `Connection.ReadMultiLines` with the accumulated `lines`.  On a
read error or on the lone-dot terminator it returns the lines collected so far
(paired with the error in the former case); otherwise it un-stuffs the line and
appends it. -/
def readMultiAux : Wire → List String → (List String × Option GoErr) × Wire
  | [], acc => ((acc, some GoErr.ioErr), [])
  | none :: rest, acc => ((acc, some GoErr.ioErr), rest)
  | some l :: rest, acc =>
    if l = endResponse then ((acc, none), rest)
    else readMultiAux rest (acc ++ [unstuffLine l])

/-- `Connection.ReadMultiLines`. -/
def ReadMultiLines (w : Wire) : (List String × Option GoErr) × Wire :=
  readMultiAux w []

/-- Modelled from the spec: the server-side dot-stuffing convention (a body line
beginning with `.` is sent with one extra leading `.`); the source contains only
the client, so this encoding side is taken from the spec's description of
byte-stuffing.  It is used to state the round-trip half of the multi-line
claim. -/
def stuffLine (l : String) : String :=
  if l.data.head? = some '.' then String.mk ('.' :: l.data) else l

/-- Go index `xs[i]` on a slice: panics (here `none`) when out of range. -/
def goIndex {α : Type} (xs : List α) (i : Nat) : Option α :=
  xs.get? i

/-- Whitespace for `strings.Fields` (the ASCII part of Unicode `IsSpace`, which
is all that protocol replies contain). -/
def isSpaceChar (ch : Char) : Bool :=
  ch = ' ' ∨ ch = '\t' ∨ ch = '\n' ∨ ch = '\r'

/-- Accumulator loop behind `strings.Fields`: splits around maximal runs of
whitespace; `cur` holds the current field reversed. -/
def fieldsAux : List Char → List Char → List (List Char)
  | [], cur => if cur = [] then [] else [cur.reverse]
  | ch :: tl, cur =>
    if isSpaceChar ch then
      if cur = [] then fieldsAux tl [] else cur.reverse :: fieldsAux tl []
    else fieldsAux tl (ch :: cur)

/-- `strings.Fields`. -/
def fields (s : String) : List String :=
  (fieldsAux s.data []).map String.mk

/-- Value of a decimal digit string, most significant first (the accumulator
form used by `strconv` digit scanning). -/
def digitsVal (ds : List Char) : Nat :=
  ds.foldl (fun a ch => a * 10 + (ch.toNat - 48)) 0

/-- Digit scan of `strconv.ParseInt`: succeeds only when every character is a
decimal digit, accumulating the value. -/
def digitsToNat (acc : Nat) : List Char → Option Nat
  | [] => some acc
  | ch :: tl =>
    if ch.isDigit then digitsToNat (acc * 10 + (ch.toNat - 48)) tl else none

/-- `strconv.Atoi` (i.e. `ParseInt(s, 10, 64)` on a 64-bit platform): optional
sign, at least one digit, all characters digits, and the value within the
`int64` range; anything else is an error. -/
def Atoi (s : String) : Except Unit Int :=
  match s.data with
  | [] => Except.error ()
  | c0 :: tl =>
    if c0 = '-' then
      if tl = [] then Except.error ()
      else
        match digitsToNat 0 tl with
        | none => Except.error ()
        | some v => if v ≤ 2 ^ 63 then Except.ok (-(v : Int)) else Except.error ()
    else if c0 = '+' then
      if tl = [] then Except.error ()
      else
        match digitsToNat 0 tl with
        | none => Except.error ()
        | some v => if v ≤ 2 ^ 63 - 1 then Except.ok (v : Int) else Except.error ()
    else
      match digitsToNat 0 (c0 :: tl) with
      | none => Except.error ()
      | some v => if v ≤ 2 ^ 63 - 1 then Except.ok (v : Int) else Except.error ()

/-- `stringToUint32`: `strconv.Atoi` followed by the Go conversion
`uint32(val)`, which truncates the two's-complement value, i.e. reduces it
modulo `2^32`.  The resulting unsigned value is represented as a `Nat`. -/
def stringToUint32 (s : String) : Except Unit Nat :=
  match Atoi s with
  | Except.error e => Except.error e
  | Except.ok val => Except.ok ((val % (2 ^ 32 : Int)).toNat)

/-- The state of a `Client`: the incoming wire, the trace of command lines
written (each `SendCMD` appends one, CRLF left implicit), the configured
`timeout` (in abstract units, `0` meaning none), and whether an absolute
deadline is currently set on the underlying `net.Conn`. -/
structure ClientState where
  wire : Wire
  sent : List String
  timeout : Nat
  deadlineArmed : Bool
  deriving DecidableEq, Repr

/-- `Client.setDeadline`: arms a deadline iff a non-zero timeout is
configured. -/
def setDeadline (c : ClientState) : ClientState :=
  if 0 < c.timeout then { c with deadlineArmed := true } else c

/-- `Client.resetDeadline`: clears the deadline (`SetDeadline(time.Time{})`)
iff a non-zero timeout is configured. -/
def resetDeadline (c : ClientState) : ClientState :=
  if 0 < c.timeout then { c with deadlineArmed := false } else c

/-- `Connection.SendCMD`: writes the formatted command line (plus CRLF) and
flushes; modelled as appending the line to the trace. -/
def SendCMD (cmd : String) (c : ClientState) : ClientState :=
  { c with sent := c.sent ++ [cmd] }

/-- `Connection.Cmd`: `SendCMD` then `ReadResponse`. -/
def Cmd (cmd : String) (c : ClientState) : GoOutcome (String × Option GoErr) × ClientState :=
  let c1 := SendCMD cmd c
  match ReadResponse c1.wire with
  | (out, w2) => (out, { c1 with wire := w2 })

namespace Client

/-- `Client.User`: deadline around one `USER <name>` exchange; only the error
is kept. -/
def User (user : String) (c : ClientState) : GoOutcome (Option GoErr) × ClientState :=
  let c1 := setDeadline c
  match Cmd ("USER " ++ user) c1 with
  | (GoOutcome.panicked, c2) => (GoOutcome.panicked, c2)
  | (GoOutcome.ret (_, err), c2) => (GoOutcome.ret err, resetDeadline c2)

/-- `Client.Pass`: deadline around one `PASS <secret>` exchange. -/
def Pass (password : String) (c : ClientState) : GoOutcome (Option GoErr) × ClientState :=
  let c1 := setDeadline c
  match Cmd ("PASS " ++ password) c1 with
  | (GoOutcome.panicked, c2) => (GoOutcome.panicked, c2)
  | (GoOutcome.ret (_, err), c2) => (GoOutcome.ret err, resetDeadline c2)

/-- `Client.Auth`: `User` then, only if it succeeded, `Pass`. -/
def Auth (username password : String) (c : ClientState) :
    GoOutcome (Option GoErr) × ClientState :=
  match User username c with
  | (GoOutcome.panicked, c1) => (GoOutcome.panicked, c1)
  | (GoOutcome.ret (some e), c1) => (GoOutcome.ret (some e), c1)
  | (GoOutcome.ret none, c1) => Pass password c1

/-- `Client.Stat`: issues `STAT`; on a command error returns `(0, 0, err)`
without clearing the deadline; splits the reply into fields and parses
`parts[0]` and `parts[1]` (each index panicking when missing), any parse
failure returning `(0, 0, errors.New "Invalid server response")` without
clearing the deadline; only the success path runs `resetDeadline`. -/
def Stat (c : ClientState) : GoOutcome (Nat × Nat × Option GoErr) × ClientState :=
  let c1 := setDeadline c
  match Cmd "STAT" c1 with
  | (GoOutcome.panicked, c2) => (GoOutcome.panicked, c2)
  | (GoOutcome.ret (_, some e), c2) => (GoOutcome.ret (0, 0, some e), c2)
  | (GoOutcome.ret (l, none), c2) =>
    let parts := fields l
    match goIndex parts 0 with
    | none => (GoOutcome.panicked, c2)
    | some p0 =>
      match stringToUint32 p0 with
      | Except.error _ =>
        (GoOutcome.ret (0, 0, some (GoErr.mk "Invalid server response")), c2)
      | Except.ok count =>
        match goIndex parts 1 with
        | none => (GoOutcome.panicked, c2)
        | some p1 =>
          match stringToUint32 p1 with
          | Except.error _ =>
            (GoOutcome.ret (0, 0, some (GoErr.mk "Invalid server response")), c2)
          | Except.ok size => (GoOutcome.ret (count, size, none), resetDeadline c2)

/-- `Client.Uidl` (the `pop3.go` variant): issues `UIDL <seq>` and returns
`strings.Fields(line)[1]` (panicking when the reply has fewer than two fields)
as the opaque unique-identifier string. -/
def Uidl (msgSeqNum : Nat) (c : ClientState) : GoOutcome (String × Option GoErr) × ClientState :=
  let c1 := setDeadline c
  match Cmd ("UIDL " ++ toString msgSeqNum) c1 with
  | (GoOutcome.panicked, c2) => (GoOutcome.panicked, c2)
  | (GoOutcome.ret (_, some e), c2) => (GoOutcome.ret ("", some e), c2)
  | (GoOutcome.ret (line, none), c2) =>
    match goIndex (fields line) 1 with
    | none => (GoOutcome.panicked, c2)
    | some uid => (GoOutcome.ret (uid, none), resetDeadline c2)

/-- `Client.List`: issues `LIST <seq>` and parses `strings.Fields(l)[1]` (the
index panicking when missing) as the size; a parse failure returns
`(0, errors.New "Invalid server response")`. -/
def List (msgSeqNum : Nat) (c : ClientState) : GoOutcome (Nat × Option GoErr) × ClientState :=
  let c1 := setDeadline c
  match Cmd ("LIST " ++ toString msgSeqNum) c1 with
  | (GoOutcome.panicked, c2) => (GoOutcome.panicked, c2)
  | (GoOutcome.ret (_, some e), c2) => (GoOutcome.ret (0, some e), c2)
  | (GoOutcome.ret (l, none), c2) =>
    match goIndex (fields l) 1 with
    | none => (GoOutcome.panicked, c2)
    | some p1 =>
      match stringToUint32 p1 with
      | Except.error _ =>
        (GoOutcome.ret (0, some (GoErr.mk "Invalid server response")), c2)
      | Except.ok size => (GoOutcome.ret (size, none), resetDeadline c2)

end Client

namespace Legacy

/-- The `Uidl` of the alternate source variant (which has no timeout support):
it issues `LIST <seq>` — the sized-listing verb — and parses
`strings.Fields(line)[1]` with `stringToUint32`, treating the identifier as a
number; a parse failure returns `(0, errors.New "Invalid server response")`. -/
def Uidl (msgSeqNum : Nat) (c : ClientState) : GoOutcome (Nat × Option GoErr) × ClientState :=
  match Cmd ("LIST " ++ toString msgSeqNum) c with
  | (GoOutcome.panicked, c2) => (GoOutcome.panicked, c2)
  | (GoOutcome.ret (_, some e), c2) => (GoOutcome.ret (0, some e), c2)
  | (GoOutcome.ret (line, none), c2) =>
    match goIndex (fields line) 1 with
    | none => (GoOutcome.panicked, c2)
    | some p1 =>
      match stringToUint32 p1 with
      | Except.error _ =>
        (GoOutcome.ret (0, some (GoErr.mk "Invalid server response")), c2)
      | Except.ok uid => (GoOutcome.ret (uid, none), c2)

end Legacy

/-! ### Helper lemmas -/

lemma sent_setDeadline (c : ClientState) : (setDeadline c).sent = c.sent := by
  unfold setDeadline; split <;> rfl

lemma sent_resetDeadline (c : ClientState) : (resetDeadline c).sent = c.sent := by
  unfold resetDeadline; split <;> rfl

lemma sent_Cmd (s : String) (c : ClientState) :
    ((Cmd s c).2).sent = c.sent ++ [s] := by
  unfold Cmd SendCMD
  rcases h : ReadResponse ({ c with sent := c.sent ++ [s] } : ClientState).wire with ⟨out, w2⟩
  simp [h]

lemma unstuffLine_stuffLine (l : String) : unstuffLine (stuffLine l) = l := by
  by_cases h : l.data.head? = some '.'
  · simp [stuffLine, unstuffLine, h]
  · simp [stuffLine, unstuffLine, h]

lemma stuffLine_ne_endResponse (l : String) : stuffLine l ≠ endResponse := by
  by_cases h : l.data.head? = some '.'
  · simp only [stuffLine, if_pos h]
    intro hcon
    have : ('.' :: l.data) = endResponse.data := congrArg String.data hcon
    rcases l with ⟨d⟩
    cases d with
    | nil => simp at h
    | cons a tl => simp [endResponse] at this
  · simp only [stuffLine, if_neg h]
    intro hcon
    rw [hcon] at h
    simp [endResponse] at h

lemma readMultiAux_append (body : List String) (rest : Wire) (acc : List String)
    (h : ∀ l ∈ body, l ≠ endResponse) :
    readMultiAux (body.map some ++ rest) acc =
      readMultiAux rest (acc ++ body.map unstuffLine) := by
  induction body generalizing acc with
  | nil => simp
  | cons l tl ih =>
    have hl : l ≠ endResponse := h l (List.mem_cons_self l tl)
    simp only [List.map_cons, List.cons_append, readMultiAux, if_neg hl, List.append_eq]
    rw [ih (acc ++ [unstuffLine l]) (fun x hx => h x (List.mem_cons_of_mem l hx))]
    simp

lemma digitsToNat_eq (ds : List Char) (h : ∀ ch ∈ ds, ch.isDigit) (acc : Nat) :
    digitsToNat acc ds = some (ds.foldl (fun a ch => a * 10 + (ch.toNat - 48)) acc) := by
  induction ds generalizing acc with
  | nil => rfl
  | cons ch tl ih =>
    have hch : ch.isDigit := h ch (List.mem_cons_self ch tl)
    simp only [digitsToNat, if_pos hch, List.foldl_cons]
    exact ih (fun x hx => h x (List.mem_cons_of_mem ch hx)) _

/-! ### Claim theorems -/

/-- C1: the claim says `ReadResponse` first verifies the minimum line length
and returns a malformed-response error on too-short lines.  The code does not:
on the empty reply line the slice `line[0:3]` is out of range, and on the
4-byte negative line `"-ERR"` the slice `line[5:]` is out of range — both are
runtime panics, not error returns. -/
theorem c1_short_line_panics :
    ReadResponse [some ""] = (GoOutcome.panicked, []) ∧
      ReadResponse [some "-ERR"] = (GoOutcome.panicked, []) := by
  decide

/-- C2 counterexample: on the negative reply `"-ERR bad"` the error message is
`"bad"` as claimed, but the result string is `" bad"` (the line from offset 4),
not the empty string. -/
theorem c2_counterexample :
    ReadResponse [some "-ERR bad"] =
      (GoOutcome.ret (" bad", some (GoErr.mk "bad")), []) ∧
      (" bad" : String) ≠ "" := by
  decide

/-- C2 amended: for every negative reply `"-ERR " ++ text`, `ReadResponse`
returns an error whose message equals `text`, together with the result string
`" " ++ text` (the reply line from offset 4) — which is nonempty, not empty. -/
theorem c2_negative_reply (msg : List Char) (rest : Wire) :
    ReadResponse (some (String.mk ('-' :: 'E' :: 'R' :: 'R' :: ' ' :: msg)) :: rest) =
      (GoOutcome.ret (String.mk (' ' :: msg), some (GoErr.mk (String.mk msg))), rest) ∧
      String.mk (' ' :: msg) ≠ "" := by
  constructor
  · simp only [ReadResponse, readLine, goSlice, goDrop]
    norm_num [List.take, List.drop, okResponse]
    intro hcon
    have := congrArg String.data hcon
    simp [okResponse] at this
  · intro hcon
    have := congrArg String.data hcon
    simp at this

/-- C3: for a multi-line body ending in a lone `.` terminator, `ReadMultiLines`
returns the body lines in order, excludes the terminator, and removes exactly
one leading `.` from each body line beginning with `.`; consequently server-side
dot-stuffing followed by the client's un-stuffing is the identity on line
content. -/
theorem c3_multiline_unstuff (body content : List String) (rest : Wire)
    (hbody : ∀ l ∈ body, l ≠ endResponse) :
    ReadMultiLines (body.map some ++ some endResponse :: rest) =
      ((body.map unstuffLine, none), rest) ∧
      ReadMultiLines ((content.map fun l => some (stuffLine l)) ++ some endResponse :: rest) =
        ((content, none), rest) := by
  constructor
  · unfold ReadMultiLines
    rw [readMultiAux_append body (some endResponse :: rest) [] hbody]
    simp [readMultiAux]
  · unfold ReadMultiLines
    have hmap : (content.map fun l => some (stuffLine l)) = (content.map stuffLine).map some := by
      simp
    rw [hmap,
      readMultiAux_append (content.map stuffLine) (some endResponse :: rest) []
        (by intro l hl
            rcases List.mem_map.mp hl with ⟨x, _, hx⟩
            rw [← hx]
            exact stuffLine_ne_endResponse x)]
    have hid : List.map (unstuffLine ∘ stuffLine) content = content :=
      calc List.map (unstuffLine ∘ stuffLine) content
          = List.map id content := List.map_congr_left fun x _ => unstuffLine_stuffLine x
        _ = content := List.map_id content
    simp [readMultiAux, List.map_map, hid]

/-- C3 witness at a concrete body and content. -/
theorem c3_multiline_unstuff_witness :
    ReadMultiLines ([".x", "y"].map some ++ some endResponse :: []) =
      (([".x", "y"].map unstuffLine, none), []) ∧
      ReadMultiLines (([".a", "", "b", "."].map fun l => some (stuffLine l)) ++
          some endResponse :: []) =
        (([".a", "", "b", "."], none), []) :=
  c3_multiline_unstuff [".x", "y"] [".a", "", "b", "."] [] (by decide)

/-- C4 counterexample: on the stream `[some "a"]` the terminator is never seen
and the read fails, and `ReadMultiLines` returns the collected line `"a"`
alongside the error — the collected lines are not discarded. -/
theorem c4_counterexample :
    ReadMultiLines [some "a"] = ((["a"], some GoErr.ioErr), []) ∧
      (["a"] : List String) ≠ [] := by
  decide

/-- C4 amended: when a read failure occurs before the terminator — either the
stream is exhausted or a read error occurs mid-stream — `ReadMultiLines`
returns an error together with the (un-stuffed) lines collected before the
failure; they are returned to the caller, not discarded. -/
theorem c4_partial_lines_returned (body : List String) (rest : Wire)
    (hbody : ∀ l ∈ body, l ≠ endResponse) :
    ReadMultiLines (body.map some) = ((body.map unstuffLine, some GoErr.ioErr), []) ∧
      ReadMultiLines (body.map some ++ none :: rest) =
        ((body.map unstuffLine, some GoErr.ioErr), rest) := by
  constructor
  · unfold ReadMultiLines
    rw [show body.map some = body.map some ++ ([] : Wire) from (List.append_nil _).symm,
      readMultiAux_append body [] [] hbody]
    simp [readMultiAux]
  · unfold ReadMultiLines
    rw [readMultiAux_append body (none :: rest) [] hbody]
    simp [readMultiAux]

/-- C4 amended witness at a concrete truncated stream. -/
theorem c4_partial_lines_returned_witness :
    ReadMultiLines (["a", ".b"].map some) =
      ((["a", ".b"].map unstuffLine, some GoErr.ioErr), []) ∧
      ReadMultiLines (["a", ".b"].map some ++ none :: [some "z"]) =
        ((["a", ".b"].map unstuffLine, some GoErr.ioErr), [some "z"]) :=
  c4_partial_lines_returned ["a", ".b"] [some "z"] (by decide)

/-- C5: the claim says every command-issuing method clears the deadline on
every exit path.  With timeout `5`, `Stat` on a rejected command (negative
reply) and on a malformed positive reply returns the error with the deadline
still armed — the error paths skip `resetDeadline`; by contrast `User`, whose
single exit path always runs `resetDeadline`, ends with the deadline cleared
even on a rejected command. -/
theorem c5_deadline_left_armed :
    Client.Stat ⟨[some "-ERR no"], [], 5, false⟩ =
      (GoOutcome.ret (0, 0, some (GoErr.mk "no")), ⟨[], ["STAT"], 5, true⟩) ∧
      Client.Stat ⟨[some "+OK abc 1200"], [], 5, false⟩ =
        (GoOutcome.ret (0, 0, some (GoErr.mk "Invalid server response")),
          ⟨[], ["STAT"], 5, true⟩) ∧
      Client.User "u" ⟨[some "-ERR no"], [], 5, false⟩ =
        (GoOutcome.ret (some (GoErr.mk "no")), ⟨[], ["USER u"], 5, false⟩) := by
  decide

/-- C6: the claim says a positive reply with the wrong field count or a
non-numeric field yields a malformed-response error.  A non-numeric field does
(`Stat` on payload `"abc 1200"` returns `errors.New "Invalid server response"`,
distinct from the server-rejection error carrying the server's text), but a
missing field makes `Stat` index `parts[1]` (resp. `List` index `Fields(l)[1]`)
out of range — a runtime panic, not an error return. -/
theorem c6_wrong_field_count_panics :
    Client.Stat ⟨[some "+OK 3"], [], 0, false⟩ =
      (GoOutcome.panicked, ⟨[], ["STAT"], 0, false⟩) ∧
      Client.List 1 ⟨[some "+OK 200"], [], 0, false⟩ =
        (GoOutcome.panicked, ⟨[], ["LIST 1"], 0, false⟩) ∧
      Client.Stat ⟨[some "+OK abc 1200"], [], 0, false⟩ =
        (GoOutcome.ret (0, 0, some (GoErr.mk "Invalid server response")),
          ⟨[], ["STAT"], 0, false⟩) ∧
      Client.Stat ⟨[some "-ERR abc 1200"], [], 0, false⟩ =
        (GoOutcome.ret (0, 0, some (GoErr.mk "abc 1200")), ⟨[], ["STAT"], 0, false⟩) ∧
      GoErr.mk "Invalid server response" ≠ GoErr.mk "abc 1200" :=
  ⟨by decide, by decide, by decide, by decide, by decide⟩

/-- C7: `Stat` on the positive reply text `"3 1200"` returns count 3, size 1200
and no error; on `"abc 1200"` it returns the malformed-response error; and
every error return of `Stat` carries both numeric outputs equal to 0. -/
theorem c7_stat_parses :
    Client.Stat ⟨[some "+OK 3 1200"], [], 0, false⟩ =
      (GoOutcome.ret (3, 1200, none), ⟨[], ["STAT"], 0, false⟩) ∧
      Client.Stat ⟨[some "+OK abc 1200"], [], 0, false⟩ =
        (GoOutcome.ret (0, 0, some (GoErr.mk "Invalid server response")),
          ⟨[], ["STAT"], 0, false⟩) ∧
      ∀ (c : ClientState) (count size : Nat) (e : GoErr) (c2 : ClientState),
        Client.Stat c = (GoOutcome.ret (count, size, some e), c2) →
        count = 0 ∧ size = 0 := by
  refine ⟨by decide, by decide, ?_⟩
  intro c count size e c2 h
  simp only [Client.Stat] at h
  repeat' split at h
  all_goals try simp_all
  all_goals omega

/-- C7 witness: the universally quantified conjunct applied at a concrete
client whose `STAT` is rejected. -/
theorem c7_stat_parses_witness : (0 : Nat) = 0 ∧ (0 : Nat) = 0 :=
  c7_stat_parses.2.2 ⟨[some "-ERR no"], [], 0, false⟩ 0 0 (GoErr.mk "no")
    ⟨[], ["STAT"], 0, false⟩ (by decide)

/-- C8: if the `USER` exchange inside `Auth` fails, `Auth` returns the `USER`
error, `PASS` is never sent, and exactly one command — the `USER` line — has
been issued on the transport. -/
theorem c8_auth_short_circuits (user pass : String) (c : ClientState) (e : GoErr)
    (c1 : ClientState) (h : Client.User user c = (GoOutcome.ret (some e), c1)) :
    Client.Auth user pass c = (GoOutcome.ret (some e), c1) ∧
      c1.sent = c.sent ++ ["USER " ++ user] := by
  constructor
  · unfold Client.Auth
    rw [h]
  · simp only [Client.User] at h
    rcases hc : Cmd ("USER " ++ user) (setDeadline c) with ⟨out, c2⟩
    rw [hc] at h
    cases out with
    | panicked => simp at h
    | ret r =>
      rcases r with ⟨res, err⟩
      simp only [Prod.mk.injEq] at h
      have hc1 : c1 = resetDeadline c2 := h.2.symm
      have hsent : c2.sent = c.sent ++ ["USER " ++ user] := by
        have hs := sent_Cmd ("USER " ++ user) (setDeadline c)
        rw [hc] at hs
        simpa [sent_setDeadline] using hs
      rw [hc1, sent_resetDeadline, hsent]

/-- C8 witness: `Auth` on a transport that rejects `USER`. -/
theorem c8_auth_short_circuits_witness :
    Client.Auth "u" "p" ⟨[some "-ERR no"], [], 0, false⟩ =
      (GoOutcome.ret (some (GoErr.mk "no")), ⟨[], ["USER u"], 0, false⟩) ∧
      (⟨[], ["USER u"], 0, false⟩ : ClientState).sent = [] ++ ["USER " ++ "u"] :=
  c8_auth_short_circuits "u" "p" ⟨[some "-ERR no"], [], 0, false⟩ (GoErr.mk "no")
    ⟨[], ["USER u"], 0, false⟩ (by decide)

/-- C9: the canonical single-message unique-ID operation (`Client.Uidl`) always
writes the command line `UIDL <seq>` and, on a positive reply with a second
whitespace field, returns that field verbatim as the opaque identifier; the
alternate source variant (`Legacy.Uidl`) instead writes the sized-listing
command line `LIST <seq>` and numeric-parses the second field, so on the very
same transport the two are not behaviorally equivalent: the canonical variant
returns the identifier `"ABCDEF"` while the alternate one issues a different
command and fails with the malformed-response error. -/
theorem c9_uidl_variants :
    (∀ (seq : Nat) (c : ClientState),
        ((Client.Uidl seq c).2).sent = c.sent ++ ["UIDL " ++ toString seq]) ∧
      (∀ (seq : Nat) (c : ClientState),
        ((Legacy.Uidl seq c).2).sent = c.sent ++ ["LIST " ++ toString seq]) ∧
      (∀ (seq : Nat) (c : ClientState) (l uid : String) (c2 : ClientState),
        Cmd ("UIDL " ++ toString seq) (setDeadline c) = (GoOutcome.ret (l, none), c2) →
        goIndex (fields l) 1 = some uid →
        Client.Uidl seq c = (GoOutcome.ret (uid, none), resetDeadline c2)) ∧
      Client.Uidl 1 ⟨[some "+OK 1 ABCDEF"], [], 0, false⟩ =
        (GoOutcome.ret ("ABCDEF", none), ⟨[], ["UIDL 1"], 0, false⟩) ∧
      Legacy.Uidl 1 ⟨[some "+OK 1 ABCDEF"], [], 0, false⟩ =
        (GoOutcome.ret (0, some (GoErr.mk "Invalid server response")),
          ⟨[], ["LIST 1"], 0, false⟩) := by
  refine ⟨?_, ?_, ?_, by decide, by decide⟩
  · intro seq c
    simp only [Client.Uidl]
    rcases hc : Cmd ("UIDL " ++ toString seq) (setDeadline c) with ⟨out, c2⟩
    have hsent : c2.sent = c.sent ++ ["UIDL " ++ toString seq] := by
      have hs := sent_Cmd ("UIDL " ++ toString seq) (setDeadline c)
      rw [hc] at hs
      simpa [sent_setDeadline] using hs
    repeat' split
    all_goals simp_all [sent_resetDeadline]
  · intro seq c
    simp only [Legacy.Uidl]
    rcases hc : Cmd ("LIST " ++ toString seq) c with ⟨out, c2⟩
    have hsent : c2.sent = c.sent ++ ["LIST " ++ toString seq] := by
      have hs := sent_Cmd ("LIST " ++ toString seq) c
      rw [hc] at hs
      exact hs
    repeat' split
    all_goals simp_all
  · intro seq c l uid c2 h hgi
    simp [Client.Uidl, h, hgi]

/-- C9 witness for the quantified return-the-second-field conjunct. -/
theorem c9_uidl_variants_witness :
    Client.Uidl 2 ⟨[some "+OK 2 xyz"], [], 0, false⟩ =
      (GoOutcome.ret ("xyz", none), resetDeadline ⟨[], ["UIDL 2"], 0, false⟩) :=
  c9_uidl_variants.2.2.1 2 ⟨[some "+OK 2 xyz"], [], 0, false⟩ "2 xyz" "xyz"
    ⟨[], ["UIDL 2"], 0, false⟩ (by decide) (by decide)

/-- C10: `stringToUint32` accepts negative decimal strings: for every nonempty
all-digit string of value `v ≤ 2^63` preceded by `-`, parsing succeeds and the
value wraps around modulo `2^32`; in particular `"-1"` yields `4294967295`. -/
theorem c10_negative_wraparound (ds : List Char) (h1 : ds ≠ [])
    (h2 : ∀ ch ∈ ds, ch.isDigit) (h3 : digitsVal ds ≤ 2 ^ 63) :
    stringToUint32 (String.mk ('-' :: ds)) =
      Except.ok ((2 ^ 32 - digitsVal ds % 2 ^ 32) % 2 ^ 32) ∧
      stringToUint32 "-1" = Except.ok 4294967295 := by
  constructor
  · have hdig : digitsToNat 0 ds = some (digitsVal ds) := digitsToNat_eq ds h2 0
    have hAtoi : Atoi (String.mk ('-' :: ds)) = Except.ok (-(digitsVal ds : Int)) := by
      simp [Atoi, h1, hdig]
      omega
    simp only [stringToUint32, hAtoi]
    congr 1
    have e1 : (2 : Int) ^ 32 = 4294967296 := by norm_num
    have e2 : (2 : Nat) ^ 32 = 4294967296 := by norm_num
    rw [e1, e2]
    omega
  · rfl

/-- C10 witness at the string `"-1"`. -/
theorem c10_negative_wraparound_witness :
    stringToUint32 (String.mk ['-', '1']) =
      Except.ok ((2 ^ 32 - digitsVal ['1'] % 2 ^ 32) % 2 ^ 32) ∧
      stringToUint32 "-1" = Except.ok 4294967295 :=
  c10_negative_wraparound ['1'] (by decide) (by decide) (by decide)

/-- C2 amended witness at the concrete negative reply `"-ERR bad"`. -/
theorem c2_negative_reply_witness :
    ReadResponse (some (String.mk ('-' :: 'E' :: 'R' :: 'R' :: ' ' :: ['b', 'a', 'd'])) :: []) =
      (GoOutcome.ret (String.mk (' ' :: ['b', 'a', 'd']),
        some (GoErr.mk (String.mk ['b', 'a', 'd']))), []) ∧
      String.mk (' ' :: ['b', 'a', 'd']) ≠ "" :=
  c2_negative_reply ['b', 'a', 'd'] []
